import Mathlib

/-!
Shallow embedding of the inventory CRUD API:
the express-validator middleware `validateItem`, the mongoose `Item` model
(`apps/api/models/Item.js`: name required maxLength 100, quantity required
min 0, optional location/description, timestamps, strict mode), and the four
routes of `apps/api/router.js` (GET `/`, POST `/`, PUT `/:id`,
DELETE `/:id`), mounted at `/api/items`.  Storage availability is a boolean
parameter: when it is false every persistence call throws, which the
handlers catch.  Time and ids are naturals supplied explicitly.
-/

namespace ItemApi

/-- A JSON-ish value appearing in a request body field. -/
inductive JValue where
  | vStr : String → JValue
  | vNum : Int → JValue
deriving DecidableEq, Repr

/-- A request body: a JSON object as a list of field-name/value pairs. -/
def Body : Type := List (String × JValue)

instance : DecidableEq Body := by
  unfold Body
  infer_instance

/-- Field lookup in a body (first binding wins, as in a JS object). -/
def Body.lookup (b : Body) (k : String) : Option JValue :=
  (List.find? (fun p => p.fst == k) b).map Prod.snd

/-- The string view of a value, as validator.js receives it (non-strings are
stringified before validation/sanitization). -/
def JValue.asString : JValue → String
  | .vStr s => s
  | .vNum n => toString n

/-- validator.js `isInt`: the value, viewed as a string, parses as an
integer; a numeric value is its own integer. -/
def JValue.asInt? : JValue → Option Int
  | .vNum n => some n
  | .vStr s => s.toInt?

/-- validator.js `isString`: true exactly on string values. -/
def JValue.isStr : JValue → Bool
  | .vStr _ => true
  | .vNum _ => false

/-- validator.js `escape`: replace &, double quote, single quote, <, >,
slash, backslash and backquote by their HTML entities. -/
def escapeChar (c : Char) : String :=
  if c = '&' then "&amp;"
  else if c = '"' then "&quot;"
  else if c = Char.ofNat 39 then "&#x27;"
  else if c = '<' then "&lt;"
  else if c = '>' then "&gt;"
  else if c = '/' then "&#x2F;"
  else if c = '\\' then "&#x5C;"
  else if c = Char.ofNat 96 then "&#96;"
  else String.mk [c]

def escape (s : String) : String :=
  String.join (s.data.map escapeChar)

def dropLeadingWs : List Char → List Char
  | [] => []
  | c :: cs => if c.isWhitespace then dropLeadingWs cs else c :: cs

/-- validator.js `trim` (no char argument): strip whitespace from both ends
of the string. -/
def trimStr (s : String) : String :=
  String.mk (List.reverse (dropLeadingWs (List.reverse
    (dropLeadingWs s.data))))

/-- The sanitizers of the `validateItem` chains: `trim().escape()` on
`name`, `location` and `description`; no sanitizer on other fields. -/
def sanitizeField (k : String) (v : JValue) : JValue :=
  if k == "name" || k == "location" || k == "description" then
    .vStr (escape (trimStr v.asString))
  else v

/-- The sanitized body the handlers see after the middleware ran. -/
def sanitizeBody (b : Body) : Body :=
  List.map (fun p => (p.fst, sanitizeField p.fst p.snd)) b

/-- `body(name).notEmpty()`: the field is present and its string view is
non-empty (checked before trimming, per chain order). -/
def nameOk (b : Body) : Bool :=
  match b.lookup "name" with
  | none => false
  | some v => v.asString != ""

/-- `body(quantity).isInt(min 0)`: present and an integer ≥ 0. -/
def qtyOk (b : Body) : Bool :=
  match b.lookup "quantity" with
  | none => false
  | some v =>
    match v.asInt? with
    | some n => decide (0 ≤ n)
    | none => false

/-- `body(k).optional().isString()`: absent, or present and a string. -/
def optStrOk (b : Body) (k : String) : Bool :=
  match b.lookup k with
  | none => true
  | some v => v.isStr

/-- The validation errors accumulated by the middleware, in chain order. -/
def vErrs (b : Body) : List String :=
  (if nameOk b then [] else ["Name is required"]) ++
  (if qtyOk b then [] else ["Quantity must be a non-negative integer"]) ++
  (if optStrOk b "location" then [] else ["Invalid value"]) ++
  (if optStrOk b "description" then [] else ["Invalid value"])

/-- The `validateItem` middleware: respond 400 with the error list when any
check fails, otherwise pass the sanitized body on to the handler. -/
def validateItem (b : Body) : Except (List String) Body :=
  if vErrs b = [] then .ok (sanitizeBody b) else .error (vErrs b)

/-- A stored Item document.  The schema is strict, so a document holds
exactly these fields (plus nothing else): persistence-assigned id, name,
quantity, optional location and description, and the two timestamps. -/
structure ItemRecord where
  id : Nat
  name : String
  quantity : Int
  location : Option String
  description : Option String
  createdAt : Nat
  updatedAt : Nat
deriving DecidableEq, Repr

/-- The document store plus its id generator. -/
structure Store where
  items : List ItemRecord
  nextId : Nat
deriving DecidableEq, Repr

def Store.findById (st : Store) (id : Nat) : Option ItemRecord :=
  List.find? (fun r => r.id == id) st.items

/-- Errors a persistence call can throw. -/
inductive DbError where
  | validationError
  | castError
  | storageError
deriving DecidableEq, Repr

/-- Mongoose document validation, run by `save()`: `name` required
(non-empty string) with `maxLength: 100`; `quantity` required with
`min: 0`. -/
def mongooseValid (name : String) (quantity : Int) : Bool :=
  name != "" && decide (name.length ≤ 100) && decide (0 ≤ quantity)

/-- `item.save()` for `new Item({name, quantity, description})`: validate the
document, then persist it with a fresh id and both timestamps set to now.
Validation runs client-side, so it fails before an unreachable store does. -/
def saveItem (storageOk : Bool) (now : Nat) (st : Store) (name : String)
    (quantity : Int) (descr : Option String) :
    Except DbError (ItemRecord × Store) :=
  if ¬ mongooseValid name quantity then .error .validationError
  else if ¬ storageOk then .error .storageError
  else .ok (⟨st.nextId, name, quantity, none, descr, now, now⟩,
    ⟨⟨st.nextId, name, quantity, none, descr, now, now⟩ :: st.items,
      st.nextId + 1⟩)

/-- The field merge `findByIdAndUpdate` performs: the schema is strict, so
only the four schema fields of the body are applied; present fields
overwrite, absent fields are preserved; schema validators are NOT run (the
`runValidators` option is not set); `timestamps` refreshes `updatedAt`.
Fails (CastError) when a present quantity cannot be cast to a number. -/
def mergeFields (now : Nat) (b : Body) (r : ItemRecord) (q : Int) :
    ItemRecord :=
  { id := r.id
    name := match b.lookup "name" with
      | some v => v.asString
      | none => r.name
    quantity := q
    location := match b.lookup "location" with
      | some v => some v.asString
      | none => r.location
    description := match b.lookup "description" with
      | some v => some v.asString
      | none => r.description
    createdAt := r.createdAt
    updatedAt := now }

def applyUpdate (now : Nat) (b : Body) (r : ItemRecord) : Option ItemRecord :=
  match b.lookup "quantity" with
  | some qv =>
    match qv.asInt? with
    | none => none
    | some n => some (mergeFields now b r n)
  | none => some (mergeFields now b r r.quantity)

/-- `Item.findByIdAndUpdate(id, body, {new: true})`: none when no document
has the id (no upsert), otherwise the merged document, persisted. -/
def findByIdAndUpdate (storageOk : Bool) (now : Nat) (st : Store) (id : Nat)
    (b : Body) : Except DbError (Option ItemRecord × Store) :=
  if ¬ storageOk then .error .storageError
  else
    match st.findById id with
    | none => .ok (none, st)
    | some r =>
      match applyUpdate now b r with
      | none => .error .castError
      | some r' =>
        .ok (some r',
          ⟨List.map (fun x => if x.id == id then r' else x) st.items,
            st.nextId⟩)

/-- `Item.findByIdAndDelete(id)`: none when no document has the id,
otherwise the removed document. -/
def findByIdAndDelete (storageOk : Bool) (st : Store) (id : Nat) :
    Except DbError (Option ItemRecord × Store) :=
  if ¬ storageOk then .error .storageError
  else
    match st.findById id with
    | none => .ok (none, st)
    | some r =>
      .ok (some r, ⟨List.filter (fun x => ¬ x.id == id) st.items, st.nextId⟩)

/-- Insertion of a record into a list kept newest-created-first. -/
def insertByCreatedDesc (r : ItemRecord) :
    List ItemRecord → List ItemRecord
  | [] => [r]
  | x :: xs =>
    if x.createdAt ≤ r.createdAt then r :: x :: xs
    else x :: insertByCreatedDesc r xs

/-- `Item.find().sort(createdAt -1)`: all records, newest-created-first. -/
def sortByCreatedDesc : List ItemRecord → List ItemRecord
  | [] => []
  | x :: xs => insertByCreatedDesc x (sortByCreatedDesc xs)

def listItems (storageOk : Bool) (st : Store) :
    Except DbError (List ItemRecord) :=
  if ¬ storageOk then .error .storageError
  else .ok (sortByCreatedDesc st.items)

/-- Requests the mounted app can receive under `/api/items`.  `getById` is
included because the spec names the operation; the router defines no
matching route for it. -/
inductive Req where
  | getAll
  | getById (id : Nat)
  | post (b : Body)
  | put (id : Nat) (b : Body)
  | del (id : Nat)

/-- Response payloads. `notFoundHtml` stands for the HTML body of the
Express default handler for a request no route matched. -/
inductive RespBody where
  | item : ItemRecord → RespBody
  | items : List ItemRecord → RespBody
  | msg : String → RespBody
  | errs : List String → RespBody
  | notFoundHtml : RespBody
deriving DecidableEq, Repr

structure Resp where
  status : Nat
  body : RespBody
deriving DecidableEq, Repr

/-- `router.get('/')`: 200 with the sorted list, 500 when the store throws. -/
def getAllItems (storageOk : Bool) (st : Store) : Resp × Store :=
  match listItems storageOk st with
  | .error _ => (⟨500, .msg "storage failure"⟩, st)
  | .ok l => (⟨200, .items l⟩, st)

/-- `router.post('/')`: after the middleware, destructure ONLY `name`,
`quantity` and `description` from the body (`location` is not read), build
the document and save; 201 with the saved record, 400 on ANY thrown error
(the catch block does not distinguish validation from storage failure). -/
def postItems (storageOk : Bool) (now : Nat) (st : Store) (b : Body) :
    Resp × Store :=
  match validateItem b with
  | .error es => (⟨400, .errs es⟩, st)
  | .ok sb =>
    match sb.lookup "name", sb.lookup "quantity" with
    | some nv, some qv =>
      match qv.asInt? with
      | some q =>
        match saveItem storageOk now st nv.asString q
            ((sb.lookup "description").map JValue.asString) with
        | .ok (r, st') => (⟨201, .item r⟩, st')
        | .error _ => (⟨400, .msg "save threw"⟩, st)
      | none => (⟨400, .msg "cast threw"⟩, st)
    | _, _ => (⟨400, .msg "required field missing"⟩, st)

/-- `router.put('/:id')`: after the middleware, `findByIdAndUpdate` with the
whole (sanitized) body; 404 when no document matched, 200 with the updated
record, 400 on ANY thrown error (storage failure included). -/
def putItems (storageOk : Bool) (now : Nat) (st : Store) (id : Nat)
    (b : Body) : Resp × Store :=
  match validateItem b with
  | .error es => (⟨400, .errs es⟩, st)
  | .ok sb =>
    match findByIdAndUpdate storageOk now st id sb with
    | .error _ => (⟨400, .msg "update threw"⟩, st)
    | .ok (none, st') => (⟨404, .msg "Item not found"⟩, st')
    | .ok (some r, st') => (⟨200, .item r⟩, st')

/-- `router.delete('/:id')`: 404 when no document matched, 200 on success,
500 when the store throws. -/
def deleteItems (storageOk : Bool) (st : Store) (id : Nat) : Resp × Store :=
  match findByIdAndDelete storageOk st id with
  | .error _ => (⟨500, .msg "storage failure"⟩, st)
  | .ok (none, st') => (⟨404, .msg "Item not found"⟩, st')
  | .ok (some _, st') => (⟨200, .msg "Item deleted"⟩, st')

/-- The mounted router.  A GET carrying an id segment matches none of the
four defined routes and falls through to the Express default 404 handler,
touching neither middleware nor store. -/
def handle (storageOk : Bool) (now : Nat) (st : Store) : Req → Resp × Store
  | .getAll => getAllItems storageOk st
  | .getById _ => (⟨404, .notFoundHtml⟩, st)
  | .post b => postItems storageOk now st b
  | .put id b => putItems storageOk now st id b
  | .del id => deleteItems storageOk st id

/-! ## Helper lemmas -/

@[simp]
theorem lookup_nil (k : String) : Body.lookup [] k = none := rfl

@[simp]
theorem lookup_cons (k k' : String) (v : JValue) (b : Body) :
    Body.lookup ((k, v) :: b) k' =
      if k == k' then some v else Body.lookup b k' := by
  cases h : k == k' <;> simp [Body.lookup, List.find?, h]

theorem lookup_sanitizeBody (b : Body) (k : String) :
    Body.lookup (sanitizeBody b) k =
      (Body.lookup b k).map (sanitizeField k) := by
  induction b with
  | nil => rfl
  | cons p b ih =>
    obtain ⟨k', v⟩ := p
    by_cases h : k' == k
    · have hk : k' = k := by simpa using h
      simp [sanitizeBody, hk]
    · simp only [sanitizeBody, List.map_cons] at *
      rw [lookup_cons, lookup_cons]
      simp only [h, if_false, Bool.false_eq_true]
      exact ih

theorem vErrs_ne_nil_of_qty (b : Body) (h : qtyOk b = false) :
    vErrs b ≠ [] := by
  cases hn : nameOk b <;> simp [vErrs, h, hn]

/-! ## Claims -/

/-- C1, counterexample: the claim says a GET to `/api/items/{id}` with a
stored record's id returns 200 with the record; in fact with a store holding
a record with id 0, `GET /api/items/0` returns 404. -/
theorem c1_counterexample :
    (Store.findById ⟨[⟨0, "Widget", 1, none, none, 5, 5⟩], 1⟩ 0).isSome
      = true
    ∧ (handle true 10 ⟨[⟨0, "Widget", 1, none, none, 5, 5⟩], 1⟩
        (.getById 0)).fst.status = 404 := by
  exact ⟨rfl, rfl⟩

/-- C1, amended: the router defines no get-by-id route, so every
`GET /api/items/{id}` falls through to the Express default handler and
returns 404 with the store untouched — for absent ids (as the claim says)
but equally for stored ones. -/
theorem c1_amended (storageOk : Bool) (now : Nat) (st : Store) (id : Nat) :
    handle storageOk now st (.getById id) = (⟨404, .notFoundHtml⟩, st) :=
  rfl

/-- C2, counterexample: the claim says `PUT /api/items/{id}` with body
`{name: "X"}` on an absent id returns 404; in fact the middleware requires
`quantity`, so the response is 400 (the store is unchanged). -/
theorem c2_counterexample :
    (handle true 0 ⟨[], 0⟩ (.put 5 [("name", .vStr "X")])).fst.status = 400
    ∧ (handle true 0 ⟨[], 0⟩ (.put 5 [("name", .vStr "X")])).snd
      = ⟨[], 0⟩ := by
  exact ⟨rfl, rfl⟩

/-- C2, amended: a PUT whose body holds only `name` fails validation
(`quantity` is required by the middleware) and returns 400 leaving the store
unchanged; a PUT on an id absent from the store whose body passes
validation returns 404 and leaves the store unchanged — no record is
created. -/
theorem c2_amended (now : Nat) (st : Store) (id : Nat) (b : Body)
    (hid : st.findById id = none) :
    (∀ sb, validateItem b = Except.ok sb →
      handle true now st (.put id b) = (⟨404, .msg "Item not found"⟩, st))
    ∧ ∀ s : String,
        (handle true now st (.put id [("name", JValue.vStr s)])).fst.status
          = 400
        ∧ (handle true now st (.put id [("name", JValue.vStr s)])).snd
          = st := by
  constructor
  · intro sb h
    simp [handle, putItems, h, findByIdAndUpdate, hid]
  · intro s
    have hq : qtyOk [("name", JValue.vStr s)] = false := by
      simp [qtyOk]
    have hne := vErrs_ne_nil_of_qty _ hq
    simp [handle, putItems, validateItem, hne]

theorem c2_amended_witness :
    (handle true 0 ⟨[], 0⟩
      (.put 5 [("name", .vStr "X"), ("quantity", .vNum 1)]))
      = (⟨404, .msg "Item not found"⟩, ⟨[], 0⟩)
    ∧ (handle true 0 ⟨[], 0⟩ (.put 5 [("name", .vStr "X")])).fst.status
      = 400 := by
  refine ⟨(c2_amended 0 ⟨[], 0⟩ 5
    [("name", .vStr "X"), ("quantity", .vNum 1)] rfl).1 _ rfl,
    ((c2_amended 0 ⟨[], 0⟩ 5
      [("name", .vStr "X"), ("quantity", .vNum 1)] rfl).2 "X").1⟩

theorem postItems_storage_down (now : Nat) (st : Store) (b : Body) :
    (postItems false now st b).fst.status = 400
    ∧ (postItems false now st b).snd = st := by
  unfold postItems
  cases h : validateItem b with
  | error es => simp
  | ok sb =>
    simp only []
    rcases hn : sb.lookup "name" with _ | nv <;>
      rcases hq : sb.lookup "quantity" with _ | qv <;> simp
    rcases hi : qv.asInt? with _ | q <;> simp
    rcases hm : mongooseValid nv.asString q <;> simp [saveItem, hm]

theorem putItems_storage_down (now : Nat) (st : Store) (id : Nat)
    (b : Body) :
    (putItems false now st id b).fst.status = 400
    ∧ (putItems false now st id b).snd = st := by
  unfold putItems
  cases h : validateItem b with
  | error es => simp
  | ok sb => simp [findByIdAndUpdate]

/-- C3, amended: when the storage layer fails, GET `/api/items` and
DELETE `/api/items/{id}` do return 500, but POST and PUT return 400: their
catch blocks map every thrown error — storage failure included — to 400.
(A GET with an id matches no route and returns 404 without touching
storage.)  The store is left unchanged in every case. -/
theorem c3_amended (now : Nat) (st : Store) (b : Body) (i j l : Nat) :
    (handle false now st .getAll).fst.status = 500
    ∧ (handle false now st (.del i)).fst.status = 500
    ∧ (handle false now st (.post b)).fst.status = 400
    ∧ (handle false now st (.put j b)).fst.status = 400
    ∧ (handle false now st (.getById l)).fst.status = 404
    ∧ (handle false now st .getAll).snd = st
    ∧ (handle false now st (.del i)).snd = st
    ∧ (handle false now st (.post b)).snd = st
    ∧ (handle false now st (.put j b)).snd = st
    ∧ (handle false now st (.getById l)).snd = st := by
  refine ⟨rfl, rfl, (postItems_storage_down now st b).1,
    (putItems_storage_down now st j b).1, rfl, rfl, rfl,
    (postItems_storage_down now st b).2,
    (putItems_storage_down now st j b).2, rfl⟩

/-- C3, counterexample: the claim says POST returns 500 on storage failure;
in fact a valid create attempted while the store is down returns 400. -/
theorem c3_counterexample :
    (handle false 0 ⟨[], 0⟩
      (.post [("name", .vStr "A"), ("quantity", .vNum 1)])).fst.status
      = 400 := by
  decide

/-- C4: the claim says a valid create supplying `location` persists and
returns it trimmed.  At the failing input
`POST {name: Laptop, quantity: 10, location: Warehouse A}` the middleware
does validate and trim the location, but `router.post` destructures only
`name`, `quantity` and `description`, so the created record has no
location at all. -/
theorem c4_location_dropped :
    handle true 7 ⟨[], 0⟩
      (.post [("name", .vStr "Laptop"), ("quantity", .vNum 10),
              ("location", .vStr " Warehouse A ")])
      = (⟨201, .item ⟨0, "Laptop", 10, none, none, 7, 7⟩⟩,
          ⟨[⟨0, "Laptop", 10, none, none, 7, 7⟩], 1⟩)
    ∧ Body.lookup (sanitizeBody
        [("name", .vStr "Laptop"), ("quantity", .vNum 10),
         ("location", .vStr " Warehouse A ")]) "location"
      = some (.vStr "Warehouse A") := by
  exact ⟨by decide, by decide⟩

set_option maxRecDepth 40000 in
/-- C5: the claim says every operation keeps names non-empty and at most
100 characters, and in particular rejects an over-long name on update.  At
the failing input — a stored record updated with a 101-character name — the
middleware only checks non-emptiness and `findByIdAndUpdate` runs no schema
validators, so the response is 200 and the 101-character name is
persisted. -/
theorem c5_overlong_name_stored :
    (handle true 9 ⟨[⟨0, "Test Item", 1, none, none, 0, 0⟩], 1⟩
      (.put 0 [("name", .vStr (String.mk (List.replicate 101 'a'))),
               ("quantity", .vNum 1)])).fst.status = 200
    ∧ ((handle true 9 ⟨[⟨0, "Test Item", 1, none, none, 0, 0⟩], 1⟩
        (.put 0 [("name", .vStr (String.mk (List.replicate 101 'a'))),
                 ("quantity", .vNum 1)])).snd.findById 0).map
        (fun r => r.name.length) = some 101 := by
  exact ⟨by decide, by decide⟩

/-- C6, counterexample: the claim says a create whose `sku` equals an
existing record's `sku` is rejected; in fact two successive creates both
carrying `sku = S` both return 201. -/
theorem c6_counterexample :
    (handle true 1 ⟨[], 0⟩
      (.post [("name", .vStr "A"), ("quantity", .vNum 1),
              ("sku", .vStr "S")])).fst.status = 201
    ∧ (handle true 2
        (handle true 1 ⟨[], 0⟩
          (.post [("name", .vStr "A"), ("quantity", .vNum 1),
                  ("sku", .vStr "S")])).snd
        (.post [("name", .vStr "B"), ("quantity", .vNum 2),
                ("sku", .vStr "S")])).fst.status = 201 := by
  exact ⟨by decide, by decide⟩

theorem vErrs_cons_foreign (k : String) (v : JValue) (b : Body)
    (h1 : k ≠ "name") (h2 : k ≠ "quantity") (h3 : k ≠ "location")
    (h4 : k ≠ "description") :
    vErrs ((k, v) :: b) = vErrs b := by
  simp [vErrs, nameOk, qtyOk, optStrOk, lookup_cons, h1, h2, h3, h4]

theorem mergeFields_cons_foreign (now : Nat) (k : String) (v : JValue)
    (b : Body) (r : ItemRecord) (h1 : k ≠ "name") (h3 : k ≠ "location")
    (h4 : k ≠ "description") (q : Int) :
    mergeFields now ((k, v) :: b) r q = mergeFields now b r q := by
  simp [mergeFields, lookup_cons, h1, h3, h4]

theorem applyUpdate_cons_foreign (now : Nat) (k : String) (v : JValue)
    (b : Body) (r : ItemRecord) (h1 : k ≠ "name") (h2 : k ≠ "quantity")
    (h3 : k ≠ "location") (h4 : k ≠ "description") :
    applyUpdate now ((k, v) :: b) r = applyUpdate now b r := by
  simp [applyUpdate, lookup_cons, h1, h2, h3, h4,
    mergeFields_cons_foreign now k v b r h1 h3 h4]

theorem post_cons_foreign (storageOk : Bool) (now : Nat) (st : Store)
    (k : String) (v : JValue) (b : Body) (h1 : k ≠ "name")
    (h2 : k ≠ "quantity") (h3 : k ≠ "location") (h4 : k ≠ "description") :
    postItems storageOk now st ((k, v) :: b) = postItems storageOk now st b
    := by
  unfold postItems validateItem
  rw [vErrs_cons_foreign k v b h1 h2 h3 h4]
  by_cases he : vErrs b = []
  · have hsan : sanitizeBody ((k, v) :: b)
        = (k, sanitizeField k v) :: sanitizeBody b := rfl
    have hname : Body.lookup ((k, sanitizeField k v) :: sanitizeBody b)
        "name" = Body.lookup (sanitizeBody b) "name" := by
      simp [lookup_cons, h1]
    have hqty : Body.lookup ((k, sanitizeField k v) :: sanitizeBody b)
        "quantity" = Body.lookup (sanitizeBody b) "quantity" := by
      simp [lookup_cons, h2]
    have hdesc : Body.lookup ((k, sanitizeField k v) :: sanitizeBody b)
        "description" = Body.lookup (sanitizeBody b) "description" := by
      simp [lookup_cons, h4]
    simp only [he, if_true, hsan, hname, hqty, hdesc]
  · simp only [he, if_false]

theorem put_cons_foreign (storageOk : Bool) (now : Nat) (st : Store)
    (id : Nat) (k : String) (v : JValue) (b : Body) (h1 : k ≠ "name")
    (h2 : k ≠ "quantity") (h3 : k ≠ "location") (h4 : k ≠ "description") :
    putItems storageOk now st id ((k, v) :: b)
      = putItems storageOk now st id b := by
  unfold putItems validateItem
  rw [vErrs_cons_foreign k v b h1 h2 h3 h4]
  by_cases he : vErrs b = []
  · have hsan : sanitizeBody ((k, v) :: b)
        = (k, sanitizeField k v) :: sanitizeBody b := rfl
    have hupd : findByIdAndUpdate storageOk now st id
        ((k, sanitizeField k v) :: sanitizeBody b)
        = findByIdAndUpdate storageOk now st id (sanitizeBody b) := by
      unfold findByIdAndUpdate
      simp only [applyUpdate_cons_foreign now k (sanitizeField k v)
        (sanitizeBody b) _ h1 h2 h3 h4]
    simp only [he, if_true, hsan, hupd]
  · simp only [he, if_false]

/-- C6, amended: the implemented schema has no `sku` field and `router.post`
never reads one: a create request is handled identically with and without a
`sku` field in its body, so no sparse-uniqueness constraint exists and a
duplicate `sku` is never rejected. -/
theorem c6_amended (storageOk : Bool) (now : Nat) (st : Store) (s : String)
    (b : Body) :
    handle storageOk now st (.post (("sku", JValue.vStr s) :: b))
      = handle storageOk now st (.post b) :=
  post_cons_foreign storageOk now st "sku" (JValue.vStr s) b
    (by decide) (by decide) (by decide) (by decide)

/-- C7, counterexample: the claim says the created record's name equals the
input value; in fact the middleware HTML-escapes the name, so posting
name `a&b` returns 201 with stored name `a&amp;b`, which differs from the
input. -/
theorem c7_counterexample :
    (handle true 3 ⟨[], 0⟩
      (.post [("name", .vStr "a&b"), ("quantity", .vNum 1)])).fst
      = ⟨201, .item ⟨0, "a&amp;b", 1, none, none, 3, 3⟩⟩
    ∧ "a&amp;b" ≠ "a&b" := by
  exact ⟨by decide, by decide⟩

/-- C7, amended: for every payload with a non-empty string name and a
non-negative integer quantity whose trimmed-and-escaped name is still
non-empty and within 100 characters, POST returns 201 and a record whose
quantity equals the input, whose name is the trimmed-and-escaped input, and
whose id, createdAt and updatedAt are assigned by the persistence layer
(the fresh id and the current time). -/
theorem c7_amended (now : Nat) (st : Store) (s : String) (q : Int)
    (hs : s ≠ "") (hq : 0 ≤ q) (hn1 : escape (trimStr s) ≠ "")
    (hn2 : (escape (trimStr s)).length ≤ 100)
    (hfresh : st.findById st.nextId = none) :
    handle true now st (.post [("name", .vStr s), ("quantity", .vNum q)])
      = (⟨201, .item
            ⟨st.nextId, escape (trimStr s), q, none, none, now, now⟩⟩,
          ⟨⟨st.nextId, escape (trimStr s), q, none, none, now, now⟩
            :: st.items, st.nextId + 1⟩)
    ∧ ∀ r ∈ st.items, r.id ≠ st.nextId := by
  constructor
  · have hb : vErrs [("name", JValue.vStr s), ("quantity", JValue.vNum q)]
        = [] := by
      simp [vErrs, nameOk, qtyOk, optStrOk, lookup_cons, JValue.asString,
        JValue.asInt?, hs, hq]
    simp [handle, postItems, validateItem, hb, sanitizeBody, sanitizeField,
      JValue.asString, JValue.asInt?, saveItem, mongooseValid, hn1, hn2, hq]
  · intro r hr
    rw [Store.findById, List.find?_eq_none] at hfresh
    simpa using hfresh r hr

theorem c7_witness :
    ("Laptop" : String) ≠ "" ∧ (0 : Int) ≤ 10
    ∧ handle true 5 ⟨[], 0⟩
        (.post [("name", .vStr "Laptop"), ("quantity", .vNum 10)])
      = (⟨201, .item ⟨0, "Laptop", 10, none, none, 5, 5⟩⟩,
          ⟨[⟨0, "Laptop", 10, none, none, 5, 5⟩], 1⟩) := by
  refine ⟨by decide, by decide, ?_⟩
  exact (c7_amended 5 ⟨[], 0⟩ "Laptop" 10 (by decide) (by decide)
    (by decide) (by decide) rfl).1


theorem validateItem_ok_iff (b sb : Body) :
    validateItem b = Except.ok sb ↔ vErrs b = [] ∧ sb = sanitizeBody b := by
  unfold validateItem
  by_cases he : vErrs b = [] <;> simp [he, eq_comm]

theorem qtyOk_of_vErrs_nil (b : Body) (h : vErrs b = []) :
    qtyOk b = true := by
  cases hq : qtyOk b
  · exfalso
    cases hn : nameOk b <;> simp [vErrs, hn, hq] at h
  · rfl

theorem qtyOk_eq_of_lookup (b : Body) (qv : JValue)
    (h : b.lookup "quantity" = some qv) :
    qtyOk b = (match qv.asInt? with
      | some n => decide (0 ≤ n)
      | none => false) := by
  unfold qtyOk
  rw [h]

theorem qtyOk_elim (b : Body) (h : qtyOk b = true) :
    ∃ qv n, b.lookup "quantity" = some qv ∧ qv.asInt? = some n ∧ 0 ≤ n := by
  rcases hl : b.lookup "quantity" with _ | qv
  · unfold qtyOk at h
    rw [hl] at h
    exact absurd h (by simp)
  · rw [qtyOk_eq_of_lookup b qv hl] at h
    rcases hi : qv.asInt? with _ | n <;> rw [hi] at h
    · exact absurd h (by simp)
    · exact ⟨qv, n, rfl, hi, by simpa using h⟩

theorem lookup_sanitizeBody_qty (b : Body) :
    Body.lookup (sanitizeBody b) "quantity" = Body.lookup b "quantity" := by
  rw [lookup_sanitizeBody]
  rcases h : Body.lookup b "quantity" with _ | v
  · rfl
  · simp [sanitizeField]

theorem saveItem_ok (storageOk : Bool) (now : Nat) (st : Store)
    (nm : String) (q : Int) (d : Option String) (r : ItemRecord)
    (st' : Store)
    (h : saveItem storageOk now st nm q d = Except.ok (r, st')) :
    0 ≤ q ∧ r = ⟨st.nextId, nm, q, none, d, now, now⟩
    ∧ st' = ⟨r :: st.items, st.nextId + 1⟩ := by
  unfold saveItem at h
  by_cases hm : mongooseValid nm q = true
  · by_cases hs : storageOk = true
    · rw [if_neg (not_not_intro hm), if_neg (not_not_intro hs)] at h
      injection h with h3
      rw [Prod.ext_iff] at h3
      simp only [] at h3
      have hq : 0 ≤ q := by
        unfold mongooseValid at hm
        simp only [Bool.and_eq_true, decide_eq_true_eq] at hm
        exact hm.2
      exact ⟨hq, h3.1.symm, by rw [← h3.2, ← h3.1]⟩
    · rw [if_neg (not_not_intro hm), if_pos hs] at h
      cases h
  · rw [if_pos hm] at h
    cases h

theorem applyUpdate_none_qty (now : Nat) (b : Body) (r : ItemRecord)
    (h : b.lookup "quantity" = none) :
    applyUpdate now b r = some (mergeFields now b r r.quantity) := by
  unfold applyUpdate
  rw [h]

theorem applyUpdate_some_qty (now : Nat) (b : Body) (r : ItemRecord)
    (qv : JValue) (h : b.lookup "quantity" = some qv) :
    applyUpdate now b r = (match qv.asInt? with
      | none => none
      | some n => some (mergeFields now b r n)) := by
  unfold applyUpdate
  rw [h]

theorem applyUpdate_some_quantity (now : Nat) (b : Body) (r r' : ItemRecord)
    (h : applyUpdate now b r = some r') :
    r'.quantity = r.quantity
    ∨ ∃ qv n, b.lookup "quantity" = some qv ∧ qv.asInt? = some n
        ∧ r'.quantity = n := by
  rcases hl : b.lookup "quantity" with _ | qv
  · rw [applyUpdate_none_qty now b r hl] at h
    injection h with h2
    left
    rw [← h2]
    rfl
  · rw [applyUpdate_some_qty now b r qv hl] at h
    rcases hi : qv.asInt? with _ | n <;> rw [hi] at h
    · exact Option.noConfusion h
    · injection h with h2
      right
      refine ⟨qv, n, rfl, hi, ?_⟩
      rw [← h2]
      rfl

theorem findByIdAndUpdate_ok (storageOk : Bool) (now : Nat) (st : Store)
    (id : Nat) (b : Body) (res : Option ItemRecord) (st' : Store)
    (h : findByIdAndUpdate storageOk now st id b = Except.ok (res, st')) :
    (res = none ∧ st' = st)
    ∨ ∃ r r', res = some r' ∧ st.findById id = some r
        ∧ applyUpdate now b r = some r'
        ∧ st'.items
          = List.map (fun x => if x.id == id then r' else x) st.items := by
  unfold findByIdAndUpdate at h
  by_cases hs : storageOk = true
  · rw [if_neg (not_not_intro hs)] at h
    rcases hf : st.findById id with _ | r <;> rw [hf] at h <;>
      simp only [] at h
    · injection h with h3
      rw [Prod.ext_iff] at h3
      exact Or.inl ⟨h3.1.symm, h3.2.symm⟩
    · rcases ha : applyUpdate now b r with _ | r' <;> rw [ha] at h <;>
        simp only [] at h
      · cases h
      · injection h with h3
        rw [Prod.ext_iff] at h3
        simp only [] at h3
        exact Or.inr ⟨r, r', h3.1.symm, rfl, ha, by rw [← h3.2]⟩
  · rw [if_pos hs] at h
    cases h

/-- C8: every operation preserves the invariant that stored quantities are
non-negative (create validates via mongoose, update merges only quantities
the middleware checked), and a POST or PUT whose quantity field is a
negative integer is answered 400 with the store unchanged. -/
theorem c8_quantity_invariant :
    (∀ (storageOk : Bool) (now : Nat) (st : Store) (req : Req),
      (∀ r ∈ st.items, 0 ≤ r.quantity) →
      ∀ r ∈ (handle storageOk now st req).snd.items, 0 ≤ r.quantity)
    ∧ ∀ (now : Nat) (st : Store) (id : Nat) (b : Body) (qv : JValue)
        (n : Int), Body.lookup b "quantity" = some qv →
        qv.asInt? = some n → n < 0 →
        (handle true now st (.post b)).fst.status = 400
        ∧ (handle true now st (.post b)).snd = st
        ∧ (handle true now st (.put id b)).fst.status = 400
        ∧ (handle true now st (.put id b)).snd = st := by
  constructor
  · intro storageOk now st req hinv
    cases req with
    | getAll =>
      unfold handle getAllItems
      rcases h : listItems storageOk st with e | l <;> simp only [h] <;>
        exact hinv
    | getById id => exact hinv
    | post b =>
      unfold handle postItems
      rcases hv : validateItem b with es | sb <;> simp only [hv]
      · exact hinv
      · rcases hn : sb.lookup "name" with _ | nv <;> try simp only [hn]
        · rcases hq3 : sb.lookup "quantity" with _ | qv <;>
            try simp only [hq3]
          all_goals exact hinv
        · rcases hq3 : sb.lookup "quantity" with _ | qv <;>
            try simp only [hq3]
          · exact hinv
          · rcases hi : qv.asInt? with _ | q <;> simp only [hi]
            · exact hinv
            · rcases hsv : saveItem storageOk now st nv.asString q
                  (Option.map JValue.asString (sb.lookup "description"))
                with e | pr <;> try simp only [hsv]
              · exact hinv
              · obtain ⟨r, st'⟩ := pr
                obtain ⟨hq0, hr, hst⟩ :=
                  saveItem_ok storageOk now st nv.asString q _ r st' hsv
                subst hst
                show ∀ x ∈ r :: st.items, 0 ≤ x.quantity
                intro x hx
                rcases List.mem_cons.mp hx with hx | hx
                · rw [hx, hr]
                  exact hq0
                · exact hinv x hx
    | put id b =>
      unfold handle putItems
      rcases hv : validateItem b with es | sb <;> simp only [hv]
      · exact hinv
      · rcases hu : findByIdAndUpdate storageOk now st id sb with e | pr <;>
          try simp only [hu]
        · exact hinv
        · obtain ⟨res, st'⟩ := pr
          rcases findByIdAndUpdate_ok storageOk now st id sb res st' hu
            with ⟨hres, hst⟩ | ⟨r, r', hres, hfind, happ, hst⟩
          · subst hres
            subst hst
            exact hinv
          · subst hres
            have hmem : r ∈ st.items := List.mem_of_find?_eq_some hfind
            have hq' : 0 ≤ r'.quantity := by
              rcases applyUpdate_some_quantity now sb r r' happ
                with hsame | ⟨qv, n, hl, hi, hqn⟩
              · rw [hsame]
                exact hinv r hmem
              · obtain ⟨hverr, hsb⟩ := (validateItem_ok_iff b sb).mp hv
                obtain ⟨qv₀, n₀, hl₀, hi₀, hn₀⟩ :=
                  qtyOk_elim b (qtyOk_of_vErrs_nil b hverr)
                rw [hsb, lookup_sanitizeBody_qty, hl₀] at hl
                injection hl with hl
                rw [hl] at hi₀
                rw [hi] at hi₀
                injection hi₀ with hi₀
                rw [hqn, hi₀]
                exact hn₀
            show ∀ x ∈ st'.items, 0 ≤ x.quantity
            intro x hx
            rw [hst] at hx
            obtain ⟨y, hy, hxy⟩ := List.mem_map.mp hx
            by_cases hid : (y.id == id) = true
            · rw [← hxy, if_pos hid]
              exact hq'
            · rw [← hxy, if_neg hid]
              exact hinv y hy
    | del id =>
      unfold handle deleteItems findByIdAndDelete
      simp only []
      by_cases hs : storageOk = true
      · rw [if_neg (not_not_intro hs)]
        rcases hf : st.findById id with _ | r <;> simp only [hf]
        · exact hinv
        · show ∀ x ∈ List.filter (fun x => ¬ x.id == id) st.items,
            0 ≤ x.quantity
          intro x hx
          exact hinv x (List.mem_of_mem_filter hx)
      · rw [if_pos hs]
        exact hinv
  · intro now st id b qv n hl hi hneg
    have hq : qtyOk b = false := by
      rw [qtyOk_eq_of_lookup b qv hl, hi]
      exact decide_eq_false (not_le.mpr hneg)
    have hne := vErrs_ne_nil_of_qty b hq
    have hv : validateItem b = Except.error (vErrs b) := by
      unfold validateItem
      rw [if_neg hne]
    refine ⟨?_, ?_, ?_, ?_⟩ <;> simp [handle, postItems, putItems, hv]

theorem c8_witness :
    (∀ r ∈ ({ items := [⟨0, "Box", 2, none, none, 0, 0⟩], nextId := 1 }
        : Store).items, 0 ≤ r.quantity)
    ∧ (∀ r ∈ (handle true 4
        ⟨[⟨0, "Box", 2, none, none, 0, 0⟩], 1⟩
        (.post [("name", .vStr "Crate"), ("quantity", .vNum 3)])).snd.items,
        0 ≤ r.quantity)
    ∧ (handle true 0 ⟨[], 0⟩
        (.post [("name", .vStr "Bad"),
                ("quantity", .vNum (-2))])).fst.status = 400 := by
  refine ⟨by decide, ?_, ?_⟩
  · exact c8_quantity_invariant.1 true 4
      ⟨[⟨0, "Box", 2, none, none, 0, 0⟩], 1⟩
      (.post [("name", .vStr "Crate"), ("quantity", .vNum 3)]) (by decide)
  · exact (c8_quantity_invariant.2 0 ⟨[], 0⟩ 0
      [("name", .vStr "Bad"), ("quantity", .vNum (-2))]
      (.vNum (-2)) (-2) (by decide) (by decide) (by decide)).1

/-- C9: the middleware HTML-entity-escapes (after trimming) `name`,
`location` and `description` before the handlers persist them, so creates
and updates store the escaped form, not the verbatim input: generally,
every such field of a body that passes validation reaches the handler
trimmed and escaped; concretely, creating with name `a&b` stores
`a&amp;b`, and updating with name `a&b` and location `<hq>` stores
`a&amp;b` and `&lt;hq&gt;`. -/
theorem c9_escaped_before_persistence :
    (∀ (b sb : Body), validateItem b = Except.ok sb →
      ∀ (k : String) (v : JValue),
        k = "name" ∨ k = "location" ∨ k = "description" →
        b.lookup k = some v →
        sb.lookup k = some (.vStr (escape (trimStr v.asString))))
    ∧ (handle true 3 ⟨[], 0⟩
        (.post [("name", .vStr "a&b"), ("quantity", .vNum 1)])).snd
      = ⟨[⟨0, "a&amp;b", 1, none, none, 3, 3⟩], 1⟩
    ∧ (handle true 9 ⟨[⟨0, "Old", 1, none, none, 0, 0⟩], 1⟩
        (.put 0 [("name", .vStr "a&b"), ("quantity", .vNum 1),
                 ("location", .vStr "<hq>")])).fst
      = ⟨200, .item ⟨0, "a&amp;b", 1, some "&lt;hq&gt;", none, 0, 9⟩⟩ := by
  refine ⟨?_, by decide, by decide⟩
  intro b sb hv k v hk hl
  obtain ⟨hverr, hsb⟩ := (validateItem_ok_iff b sb).mp hv
  rw [hsb, lookup_sanitizeBody, hl]
  have hesc : sanitizeField k v = .vStr (escape (trimStr v.asString)) := by
    rcases hk with hk | hk | hk <;> rw [hk] <;> rfl
  simp [hesc]

theorem c9_witness :
    Body.lookup (sanitizeBody
      [("name", .vStr " a&b "), ("quantity", .vNum 2)]) "name"
      = some (.vStr "a&amp;b") := by
  exact c9_escaped_before_persistence.1
    [("name", .vStr " a&b "), ("quantity", .vNum 2)]
    (sanitizeBody [("name", .vStr " a&b "), ("quantity", .vNum 2)])
    rfl "name" (.vStr " a&b ") (Or.inl rfl) rfl

/-- C10: fields outside the declared schema are silently dropped and never
cause an error: a POST or PUT whose body carries an extra field (any key
other than `name`, `quantity`, `location`, `description` — e.g. `sku` or
`category`) is handled exactly like the same request without it, and a
stored record holds nothing beyond the schema fields (the record type has
only id, name, quantity, location, description, createdAt, updatedAt). -/
theorem c10_extra_fields_dropped (storageOk : Bool) (now : Nat) (st : Store)
    (id : Nat) (k : String) (v : JValue) (b : Body) (h1 : k ≠ "name")
    (h2 : k ≠ "quantity") (h3 : k ≠ "location") (h4 : k ≠ "description") :
    handle storageOk now st (.post ((k, v) :: b))
      = handle storageOk now st (.post b)
    ∧ handle storageOk now st (.put id ((k, v) :: b))
      = handle storageOk now st (.put id b) :=
  ⟨post_cons_foreign storageOk now st k v b h1 h2 h3 h4,
    put_cons_foreign storageOk now st id k v b h1 h2 h3 h4⟩

theorem c10_witness :
    handle true 6 ⟨[], 0⟩
      (.post [("category", .vStr "tools"), ("name", .vStr "Saw"),
              ("quantity", .vNum 4)])
      = handle true 6 ⟨[], 0⟩
          (.post [("name", .vStr "Saw"), ("quantity", .vNum 4)])
    ∧ handle true 6 ⟨[], 0⟩
        (.put 3 [("category", .vStr "tools"), ("name", .vStr "Saw"),
                 ("quantity", .vNum 4)])
      = handle true 6 ⟨[], 0⟩
          (.put 3 [("name", .vStr "Saw"), ("quantity", .vNum 4)]) := by
  exact c10_extra_fields_dropped true 6 ⟨[], 0⟩ 3 "category"
    (.vStr "tools") [("name", .vStr "Saw"), ("quantity", .vNum 4)]
    (by decide) (by decide) (by decide) (by decide)

end ItemApi
